import Mathlib

/-!
Verification of the resilient response-acquisition pipeline of the
svd-prompt-enhancer repository: the cascading JSON-salvage parsers
(`core/safe_json_handler.py` and `core/__init__.py`), the regex-based
extractor (`utils/regex_utils.py`), the backoff computation
(`config/constants.py`) and the retrying enhancement worker
(`workers/enhancement_worker.py`).

Python dynamic values are shallowly embedded as `PyVal`.  Python numbers
are carried by their source lexeme (no claim inspects a numeric value).
`json.loads` is embedded as a fuel-indexed recursive-descent parser over
the JSON grammar (objects, arrays, strings with escapes, numbers,
literals; duplicate object keys resolve last-wins as in Python dicts).
Wall-clock time in the worker is modelled as the number of cancellation
checkpoints passed.
-/

set_option autoImplicit false

/-- Embedding of a dynamic Python value as it flows through the parsers. -/
inductive PyVal where
  | vNull
  | vBool (b : Bool)
  | vNum (lex : String)
  | vStr (s : String)
  | vArr (xs : List PyVal)
  | vObj (fields : List (String × PyVal))
  deriving Repr

/-- Python `d[k] = v` on an insertion-ordered dict represented as an
association list: an existing key keeps its position and gets the new
value, a fresh key is appended. -/
def dictInsert (d : List (String × PyVal)) (k : String) (v : PyVal) :
    List (String × PyVal) :=
  match d with
  | [] => [(k, v)]
  | (k1, v1) :: rest =>
      if k1 = k then (k, v) :: rest else (k1, v1) :: dictInsert rest k v

/-- Python `d.get(k)` on the association-list dict. -/
def dictGet (d : List (String × PyVal)) (k : String) : Option PyVal :=
  match d with
  | [] => none
  | (k1, v1) :: rest => if k1 = k then some v1 else dictGet rest k

/-- JSON whitespace as accepted between tokens by Python `json.loads`. -/
def isJsonWs (c : Char) : Bool :=
  c = ' ' || c = '\t' || c = '\n' || c = '\r'

/-- Drop leading JSON whitespace. -/
def skipWs : List Char → List Char
  | [] => []
  | c :: cs => if isJsonWs c then skipWs cs else c :: cs

/-- Hexadecimal digit value, for `\uXXXX` string escapes. -/
def hexVal (c : Char) : Option Nat :=
  if '0' ≤ c ∧ c ≤ '9' then some (c.toNat - '0'.toNat)
  else if 'a' ≤ c ∧ c ≤ 'f' then some (c.toNat - 'a'.toNat + 10)
  else if 'A' ≤ c ∧ c ≤ 'F' then some (c.toNat - 'A'.toNat + 10)
  else none

/-- Body of a JSON string literal, after the opening quote.  Standard
escapes are decoded; raw control characters are rejected as in strict
`json.loads`.  (Lone surrogate escapes, which Python would keep, are
rejected here; no input of this development contains them.) -/
def parseStrChars : Nat → List Char → List Char → Option (String × List Char)
  | 0, _, _ => none
  | _ + 1, _, [] => none
  | fuel + 1, acc, c :: cs =>
      if c = '"' then some (String.mk acc.reverse, cs)
      else if c = '\\' then
        match cs with
        | [] => none
        | e :: cs2 =>
            if e = '"' then parseStrChars fuel ('"' :: acc) cs2
            else if e = '\\' then parseStrChars fuel ('\\' :: acc) cs2
            else if e = '/' then parseStrChars fuel ('/' :: acc) cs2
            else if e = 'b' then parseStrChars fuel ('\x08' :: acc) cs2
            else if e = 'f' then parseStrChars fuel ('\x0c' :: acc) cs2
            else if e = 'n' then parseStrChars fuel ('\n' :: acc) cs2
            else if e = 'r' then parseStrChars fuel ('\r' :: acc) cs2
            else if e = 't' then parseStrChars fuel ('\t' :: acc) cs2
            else if e = 'u' then
              match cs2 with
              | h1 :: h2 :: h3 :: h4 :: cs3 =>
                  match hexVal h1, hexVal h2, hexVal h3, hexVal h4 with
                  | some a, some b, some c3, some d =>
                      let n := ((a * 16 + b) * 16 + c3) * 16 + d
                      if h : n.isValidChar then
                        parseStrChars fuel (Char.ofNatAux n h :: acc) cs3
                      else none
                  | _, _, _, _ => none
              | _ => none
            else none
      else if c.toNat < 32 then none
      else parseStrChars fuel (c :: acc) cs

/-- Longest run of decimal digits. -/
def spanDigits (cs : List Char) : List Char × List Char :=
  cs.span Char.isDigit

/-- A JSON number per the grammar of `json.loads`: optional minus, integer
part without leading zeros, optional fraction, optional exponent.  The
lexeme is kept verbatim. -/
def parseNumber (cs : List Char) : Option (PyVal × List Char) :=
  let (signPart, cs1) :=
    match cs with
    | '-' :: rest => (['-'], rest)
    | rest => (([] : List Char), rest)
  match cs1 with
  | [] => none
  | c :: rest =>
      if c = '0' then
        afterInt (signPart ++ [c]) rest
      else if c.isDigit then
        let (ds, rest2) := spanDigits rest
        afterInt (signPart ++ c :: ds) rest2
      else none
where
  /-- Optional fraction and exponent after the integer part. -/
  afterInt (lex : List Char) (cs : List Char) : Option (PyVal × List Char) :=
    let (lex2, cs2) :=
      match cs with
      | '.' :: rest =>
          let (ds, rest2) := spanDigits rest
          if ds = [] then (([] : List Char), ([] : List Char)) else (lex ++ '.' :: ds, rest2)
      | rest => (lex, rest)
    if lex2 = [] then none
    else
      match cs2 with
      | 'e' :: rest => afterExp lex2 'e' rest
      | 'E' :: rest => afterExp lex2 'E' rest
      | rest => some (.vNum (String.mk lex2), rest)
  /-- Exponent part after an `e`/`E` marker. -/
  afterExp (lex : List Char) (e : Char) (cs : List Char) : Option (PyVal × List Char) :=
    let (signPart, cs2) :=
      match cs with
      | '+' :: rest => (['+'], rest)
      | '-' :: rest => (['-'], rest)
      | rest => (([] : List Char), rest)
    let (ds, cs3) := spanDigits cs2
    if ds = [] then none
    else some (.vNum (String.mk (lex ++ e :: signPart ++ ds)), cs3)

mutual

/-- One JSON value, fuel-indexed (the fuel bounds nesting; each recursive
call consumes at least one input character, so `length + 1` fuel always
suffices).  Mirrors strict `json.loads`: no `NaN`/`Infinity` literals are
accepted (no input of this development contains them). -/
def parseVal : Nat → List Char → Option (PyVal × List Char)
  | 0, _ => none
  | fuel + 1, cs =>
      match skipWs cs with
      | [] => none
      | c :: rest =>
          if c = '\x7b' then
            match skipWs rest with
            | '\x7d' :: rest2 => some (.vObj [], rest2)
            | rest2 => parseMembers fuel rest2 []
          else if c = '[' then
            match skipWs rest with
            | ']' :: rest2 => some (.vArr [], rest2)
            | rest2 => parseItems fuel rest2 []
          else if c = '"' then
            match parseStrChars (rest.length + 1) [] rest with
            | some (s, rest2) => some (.vStr s, rest2)
            | none => none
          else if c = 't' then
            match rest with
            | 'r' :: 'u' :: 'e' :: rest2 => some (.vBool true, rest2)
            | _ => none
          else if c = 'f' then
            match rest with
            | 'a' :: 'l' :: 's' :: 'e' :: rest2 => some (.vBool false, rest2)
            | _ => none
          else if c = 'n' then
            match rest with
            | 'u' :: 'l' :: 'l' :: rest2 => some (.vNull, rest2)
            | _ => none
          else if c = '-' || c.isDigit then parseNumber (c :: rest)
          else none

/-- Members of a JSON object after the opening brace (nonempty case). -/
def parseMembers : Nat → List Char → List (String × PyVal) →
    Option (PyVal × List Char)
  | 0, _, _ => none
  | fuel + 1, cs, acc =>
      match skipWs cs with
      | '"' :: rest =>
          match parseStrChars (rest.length + 1) [] rest with
          | some (k, rest2) =>
              match skipWs rest2 with
              | ':' :: rest3 =>
                  match parseVal fuel rest3 with
                  | some (v, rest4) =>
                      let acc2 := dictInsert acc k v
                      match skipWs rest4 with
                      | ',' :: rest5 => parseMembers fuel rest5 acc2
                      | '\x7d' :: rest5 => some (.vObj acc2, rest5)
                      | _ => none
                  | none => none
              | _ => none
          | none => none
      | _ => none

/-- Items of a JSON array after the opening bracket (nonempty case). -/
def parseItems : Nat → List Char → List PyVal → Option (PyVal × List Char)
  | 0, _, _ => none
  | fuel + 1, cs, acc =>
      match parseVal fuel cs with
      | some (v, rest) =>
          match skipWs rest with
          | ',' :: rest2 => parseItems fuel rest2 (v :: acc)
          | ']' :: rest2 => some (.vArr (v :: acc).reverse, rest2)
          | _ => none
      | none => none

end

/-- Python `json.loads`: exactly one JSON value surrounded by optional
whitespace; anything else raises `JSONDecodeError`, embedded as `none`. -/
def jsonLoads (s : String) : Option PyVal :=
  match parseVal (s.length + 1) s.toList with
  | some (v, rest) => if skipWs rest = [] then some v else none
  | none => none

/-! ## Regex models for `safe_json_handler.py`

`JSON_PATTERN = \x7b[^\x7b\x7d]*(?:\x7b[^\x7b\x7d]*\x7d[^\x7b\x7d]*)*\x7d`
matches an object-shaped substring with at most one level of brace
nesting.  Since every `[^\x7b\x7d]*` run is delimited by brace characters
that the class cannot consume, backtracking never changes the outcome and
the match at a given start position is deterministic; `findall` scans
left to right and continues after each non-overlapping match. -/

/-- Longest brace-free prefix. -/
def spanNonBrace (cs : List Char) : List Char × List Char :=
  cs.span (fun c => ¬ c = '\x7b' ∧ ¬ c = '\x7d')

/-- Continuation of a `JSON_PATTERN` match: after the opening brace and a
brace-free run, repeatedly consume `\x7b run \x7d run` groups until the
closing brace.  `acc` holds the consumed characters in reverse. -/
def jsonPatTail : Nat → List Char → List Char → Option (List Char × List Char)
  | 0, _, _ => none
  | fuel + 1, acc, cs =>
      match cs with
      | '\x7d' :: rest => some (('\x7d' :: acc).reverse, rest)
      | '\x7b' :: rest =>
          let (a, rest2) := spanNonBrace rest
          match rest2 with
          | '\x7d' :: rest3 =>
              let (b, rest4) := spanNonBrace rest3
              jsonPatTail fuel (b.reverse ++ '\x7d' :: a.reverse ++ '\x7b' :: acc) rest4
          | _ => none
      | _ => none

/-- Attempt a `JSON_PATTERN` match at the current position. -/
def jsonPatAt (cs : List Char) : Option (List Char × List Char) :=
  match cs with
  | '\x7b' :: rest =>
      let (a, rest2) := spanNonBrace rest
      jsonPatTail (rest2.length + 1) (a.reverse ++ ['\x7b']) rest2
  | _ => none

/-- `JSON_PATTERN.findall`: all non-overlapping matches, left to right. -/
def jsonPatFindall : Nat → List Char → List String
  | 0, _ => []
  | _ + 1, [] => []
  | fuel + 1, c :: rest =>
      match jsonPatAt (c :: rest) with
      | some (m, rest2) => String.mk m :: jsonPatFindall fuel rest2
      | none => jsonPatFindall fuel rest

/-- The candidate object-shaped substrings of a response, in match order. -/
def jsonCandidates (s : String) : List String :=
  jsonPatFindall (s.length + 1) s.toList

/-- Word character of the regex `\w` (ASCII view; every input considered
here is ASCII). -/
def isWordChar (c : Char) : Bool :=
  c.isAlphanum || c = '_'

/-- Whitespace of the regex `\s`. -/
def isRegexWs (c : Char) : Bool :=
  c = ' ' || c = '\t' || c = '\n' || c = '\r' || c = '\x0c' || c = '\x0b'

/-- Drop leading regex whitespace (`\s*`). -/
def skipRegexWs (cs : List Char) : List Char :=
  (cs.span isRegexWs).2

/-- Attempt a `KEY_VALUE_PATTERN = "(\w+)"\s*:\s*"([^"]*)"` match at the
current position.  The greedy runs are delimited by the literal quotes
and colon that their classes cannot consume, so matching is again
deterministic. -/
def kvMatchAt (cs : List Char) : Option ((String × String) × List Char) :=
  match cs with
  | '"' :: rest =>
      let (k, rest2) := rest.span isWordChar
      if k = [] then none
      else
        match rest2 with
        | '"' :: rest3 =>
            match skipRegexWs rest3 with
            | ':' :: rest4 =>
                match skipRegexWs rest4 with
                | '"' :: rest5 =>
                    let (v, rest6) := rest5.span (fun c => ¬ c = '"')
                    match rest6 with
                    | '"' :: rest7 => some ((String.mk k, String.mk v), rest7)
                    | _ => none
                | _ => none
            | _ => none
        | _ => none
  | _ => none

/-- `KEY_VALUE_PATTERN.findall`: non-overlapping key/value pairs. -/
def kvFindall : Nat → List Char → List (String × String)
  | 0, _ => []
  | _ + 1, [] => []
  | fuel + 1, c :: rest =>
      match kvMatchAt (c :: rest) with
      | some (p, rest2) => p :: kvFindall fuel rest2
      | none => kvFindall fuel rest

/-- The `"key": "value"` fragments of a response, in match order. -/
def kvPairs (s : String) : List (String × String) :=
  kvFindall (s.length + 1) s.toList

/-! ## Embedding of `core/safe_json_handler.py` (class `SafeJSONHandler`) -/

namespace SafeJSONHandler

/-- `JSONExtractionStrategy` of `safe_json_handler.py`. -/
inductive JSONExtractionStrategy where
  | DIRECT_PARSE
  | REGEX_EXTRACTION
  | PARTIAL_PARSE
  | FALLBACK
  deriving Repr, DecidableEq

/-- `ParseResult` of `safe_json_handler.py`.  `raw_response` receives the
original (possibly non-string) argument in the fallback path, hence
`Option PyVal`. -/
structure ParseResult where
  success : Bool
  data : Option PyVal
  strategy_used : JSONExtractionStrategy
  error_message : Option String := none
  raw_response : Option PyVal := none
  deriving Repr

/-- Whitespace stripped by Python `str.strip()` (ASCII view; every value
this development strips is ASCII). -/
def isStripWs (c : Char) : Bool :=
  c = ' ' || c = '\t' || c = '\n' || c = '\r' || c = '\x0c' || c = '\x0b'

/-- Python `str.strip()`. -/
def pyStrip (s : String) : String :=
  String.mk (((s.toList.dropWhile isStripWs).reverse.dropWhile isStripWs).reverse)

/-- One required key of `_validate_json`: present, a string, and nonempty
after stripping. -/
def validKeyVal (d : List (String × PyVal)) (k : String) : Bool :=
  match dictGet d k with
  | some (.vStr v) => decide (¬ pyStrip v = "")
  | _ => false

/-- `_validate_json`: the parsed data is a dict holding both required keys
as nonempty (after stripping) strings. -/
def validateJson : PyVal → Bool
  | .vObj d => validKeyVal d "prompt_en" && validKeyVal d "prompt_pl"
  | _ => false

/-- `_strategy_direct_parse`: `json.loads` on the whole response, then
validation.  The `JSONDecodeError` message text is abbreviated to a fixed
marker (no claim inspects it). -/
def strategyDirectParse (response : String) : ParseResult :=
  match jsonLoads response with
  | some data =>
      if validateJson data then
        { success := true, data := some data,
          strategy_used := .DIRECT_PARSE, raw_response := some (.vStr response) }
      else
        { success := false, data := none, strategy_used := .DIRECT_PARSE,
          error_message := some "Missing required keys",
          raw_response := some (.vStr response) }
  | none =>
      { success := false, data := none, strategy_used := .DIRECT_PARSE,
        error_message := some "JSONDecodeError",
        raw_response := some (.vStr response) }

/-- The inner loop of `_strategy_regex_extraction`: try each candidate in
order, returning the first that both parses and validates (a candidate
that parses but fails validation is skipped, not fatal). -/
def firstValidMatch : List String → Option PyVal
  | [] => none
  | m :: rest =>
      match jsonLoads m with
      | some data => if validateJson data then some data else firstValidMatch rest
      | none => firstValidMatch rest

/-- `_strategy_regex_extraction`.  The enclosing `try/except` never fires:
pattern matching, `json.loads` and validation raise nothing here. -/
def strategyRegexExtraction (response : String) : ParseResult :=
  match jsonCandidates response with
  | [] =>
      { success := false, data := none, strategy_used := .REGEX_EXTRACTION,
        error_message := some "No JSON pattern found",
        raw_response := some (.vStr response) }
  | m :: rest =>
      match firstValidMatch (m :: rest) with
      | some data =>
          { success := true, data := some data,
            strategy_used := .REGEX_EXTRACTION, raw_response := some (.vStr response) }
      | none =>
          { success := false, data := none, strategy_used := .REGEX_EXTRACTION,
            error_message := some "No valid JSON found in matches",
            raw_response := some (.vStr response) }

/-- The dict `_strategy_partial_parse` reconstructs from the key/value
fragments (`reconstructed[key] = value`, last occurrence wins). -/
def reconstruct (pairs : List (String × String)) : List (String × PyVal) :=
  pairs.foldl (fun d p => dictInsert d p.1 (.vStr p.2)) []

/-- `_strategy_partial_parse`. -/
def strategyPartialParse (response : String) : ParseResult :=
  match kvPairs response with
  | [] =>
      { success := false, data := none, strategy_used := .PARTIAL_PARSE,
        error_message := some "No key-value pairs found",
        raw_response := some (.vStr response) }
  | p :: rest =>
      let reconstructed := reconstruct (p :: rest)
      if validateJson (.vObj reconstructed) then
        { success := true, data := some (.vObj reconstructed),
          strategy_used := .PARTIAL_PARSE, raw_response := some (.vStr response) }
      else
        { success := false, data := none, strategy_used := .PARTIAL_PARSE,
          error_message := some "Missing required keys",
          raw_response := some (.vStr response) }

/-- Python `len(x)`: defined for sized values, a `TypeError` otherwise. -/
def pyLen : PyVal → Option Nat
  | .vStr s => some s.length
  | .vArr xs => some xs.length
  | .vObj d => some d.length
  | _ => none

/-- The dict built by `_fallback_result` (given `len(response)`). -/
def fallbackData (error : String) (n : Nat) : List (String × PyVal) :=
  [("prompt_en", .vStr "Error parsing response. Please try again."),
   ("prompt_pl", .vStr "Błąd parsowania odpowiedzi. Spróbuj ponownie."),
   ("error", .vStr error),
   ("raw_response_length", .vNum (toString n))]

/-- `_fallback_result`: builds the fallback dict.  Evaluating
`len(response)` on a value without a length raises `TypeError`, which no
surrounding handler catches — embedded as the `Except.error` case. -/
def fallbackResult (response : PyVal) (error : String) : Except String ParseResult :=
  match pyLen response with
  | none => .error "TypeError: object has no len()"
  | some n =>
      .ok { success := false, data := some (.vObj (fallbackData error n)),
            strategy_used := .FALLBACK, error_message := some error,
            raw_response := some response }

/-- Python `type(x)` rendering used in the invalid-input message. -/
def pyTypeName : PyVal → String
  | .vNull => "<class 'NoneType'>"
  | .vBool _ => "<class 'bool'>"
  | .vNum _ => "<class 'int'>"
  | .vStr _ => "<class 'str'>"
  | .vArr _ => "<class 'list'>"
  | .vObj _ => "<class 'dict'>"

/-- The strategy cascade of `parse` for a nonempty string input. -/
def parseStr (s : String) : ParseResult :=
  let r1 := strategyDirectParse s
  if r1.success then r1
  else
    let r2 := strategyRegexExtraction s
    if r2.success then r2
    else
      let r3 := strategyPartialParse s
      if r3.success then r3
      else
        { success := false,
          data := some (.vObj (fallbackData "All parsing strategies failed" s.length)),
          strategy_used := .FALLBACK,
          error_message := some "All parsing strategies failed",
          raw_response := some (.vStr s) }

/-- `SafeJSONHandler.parse`.  The guard `not response or not
isinstance(response, str)` sends the empty string and every non-string
through `_fallback_result` with an invalid-type message; for a string
that call cannot raise, so the string path is total. -/
def parse (response : PyVal) : Except String ParseResult :=
  match response with
  | .vStr s =>
      if s = "" then
        fallbackResult (.vStr s) ("Invalid response type: " ++ pyTypeName (.vStr s))
      else .ok (parseStr s)
  | other => fallbackResult other ("Invalid response type: " ++ pyTypeName other)

end SafeJSONHandler

/-! ## Embedding of `utils/regex_utils.py` (`extract_json_from_response`)

The five patterns are tried in order; for each, `re.search` either yields
no match or a deterministic leftmost match (the lazy `.*?` runs pick the
earliest continuation, the greedy runs are delimited by characters their
classes cannot consume, and a greedy trailing `.*` extends to the last
closing brace). -/

namespace RegexUtils

/-- Does `cs` start with `pat`? -/
def beginsWith : List Char → List Char → Bool
  | [], _ => true
  | _ :: _, [] => false
  | p :: ps, c :: cs => p = c && beginsWith ps cs

/-- Suffix immediately after the first occurrence of `pat`, if any. -/
def dropAfterFirst (pat : List Char) : Nat → List Char → Option (List Char)
  | 0, _ => none
  | fuel + 1, cs =>
      if beginsWith pat cs then some (cs.drop pat.length)
      else
        match cs with
        | [] => none
        | _ :: rest => dropAfterFirst pat fuel rest

/-- Does `pat` occur anywhere in `cs`? -/
def containsSub (pat cs : List Char) : Bool :=
  (dropAfterFirst pat (cs.length + 1) cs).isSome

/-- The literal `"prompt_en"` (with quotes) as it appears in the patterns. -/
def litEn : List Char := '"' :: "prompt_en".toList ++ ['"']

/-- The literal `"prompt_pl"` (with quotes) as it appears in the patterns. -/
def litPl : List Char := '"' :: "prompt_pl".toList ++ ['"']

/-- Search for the tight patterns
`\x7b[^\x7b\x7d]*LIT1[^\x7b\x7d]*LIT2[^\x7b\x7d]*\x7d`: a brace-free
interior, delimited by the first brace character after the opener, that
contains the two literals in order. -/
def searchTight (lit1 lit2 : List Char) : Nat → List Char → Option String
  | 0, _ => none
  | _ + 1, [] => none
  | fuel + 1, c :: rest =>
      if c = '\x7b' then
        let (interior, rest2) := spanNonBrace rest
        let hit :=
          match rest2 with
          | '\x7d' :: _ =>
              match dropAfterFirst lit1 (interior.length + 1) interior with
              | some tail =>
                  if containsSub lit2 tail then
                    some (String.mk ('\x7b' :: interior ++ ['\x7d']))
                  else none
              | none => none
          | _ => none
        match hit with
        | some m => some m
        | none => searchTight lit1 lit2 fuel rest
      else searchTight lit1 lit2 fuel rest

/-- Search for the lazy patterns `\x7b.*?LIT1.*?LIT2.*?\x7d` (DOTALL):
from an opening brace, the earliest occurrence of `lit1`, then of `lit2`,
then the first closing brace; the match ends at that closing brace. -/
def searchLazy (lit1 lit2 : List Char) : Nat → List Char → Option String
  | 0, _ => none
  | _ + 1, [] => none
  | fuel + 1, c :: rest =>
      if c = '\x7b' then
        let hit :=
          match dropAfterFirst lit1 (rest.length + 1) rest with
          | some d1 =>
              match dropAfterFirst lit2 (d1.length + 1) d1 with
              | some d2 =>
                  let d3 := d2.dropWhile (fun x => ¬ x = '\x7d')
                  match d3 with
                  | [] => none
                  | _ :: _ =>
                      some (String.mk ('\x7b' :: rest.take (rest.length - d3.length + 1)))
              | none => none
          | none => none
        match hit with
        | some m => some m
        | none => searchLazy lit1 lit2 fuel rest
      else searchLazy lit1 lit2 fuel rest

/-- Search for the desperate pattern `\x7b.*\x7d` (DOTALL, greedy): from
the first opening brace that has a closing brace somewhere after it, to
the last closing brace. -/
def searchGreedy : Nat → List Char → Option String
  | 0, _ => none
  | _ + 1, [] => none
  | fuel + 1, c :: rest =>
      if c = '\x7b' then
        let tailLen := (rest.reverse.dropWhile (fun x => ¬ x = '\x7d')).length
        if tailLen = 0 then searchGreedy fuel rest
        else some (String.mk ('\x7b' :: rest.take tailLen))
      else searchGreedy fuel rest

/-- The five `re.search` results, in the order the source lists them. -/
def patternSearches (s : String) : List (Option String) :=
  [searchTight litEn litPl (s.length + 1) s.toList,
   searchTight litPl litEn (s.length + 1) s.toList,
   searchLazy litEn litPl (s.length + 1) s.toList,
   searchLazy litPl litEn (s.length + 1) s.toList,
   searchGreedy (s.length + 1) s.toList]

/-- `json.loads` on a match plus the `"prompt_en" in data and "prompt_pl"
in data` key check.  Every match string starts with a brace, so a
successful load is always a dict. -/
def tryLoadCheck (m : String) : Option (List (String × PyVal)) :=
  match jsonLoads m with
  | some (.vObj d) =>
      if (dictGet d "prompt_en").isSome && (dictGet d "prompt_pl").isSome then some d
      else none
  | _ => none

/-- The pattern loop: a failed parse or a missing key falls through to the
next pattern. -/
def tryPatterns : List (Option String) → Option (List (String × PyVal))
  | [] => none
  | none :: rest => tryPatterns rest
  | some m :: rest =>
      match tryLoadCheck m with
      | some d => some d
      | none => tryPatterns rest

/-- Python slice `s[:n]`. -/
def pyTake (n : Nat) (s : String) : String :=
  String.mk (s.toList.take n)

/-- The fallback dict returned when every pattern fails. -/
def fallbackRaw (s : String) : List (String × PyVal) :=
  [("prompt_en", .vStr (pyTake 500 s)),
   ("prompt_pl", .vStr (pyTake 500 s)),
   ("_status", .vStr "fallback_raw_response")]

/-- `extract_json_from_response`. -/
def extract_json_from_response (s : String) : List (String × PyVal) :=
  match tryPatterns (patternSearches s) with
  | some d => d
  | none => fallbackRaw s

end RegexUtils

/-! ## Embedding of `config/constants.py` (retry configuration)

The retry constants are Python `int`s (2, 2, 30, 3), so
`get_retry_delay`'s arithmetic is exact integer arithmetic and the
natural-number embedding is extensionally identical. -/

def RETRY_MAX_ATTEMPTS : Nat := 3

def RETRY_INITIAL_DELAY : Nat := 2

def RETRY_MAX_DELAY : Nat := 30

def RETRY_BACKOFF_MULTIPLIER : Nat := 2

/-- `get_retry_delay`: exponential backoff capped at the max delay. -/
def get_retry_delay (attempt : Nat) : Nat :=
  min (RETRY_INITIAL_DELAY * RETRY_BACKOFF_MULTIPLIER ^ attempt) RETRY_MAX_DELAY

/-! ## Embedding of `core/__init__.py` (the `SafeJSONHandler` the worker uses)

`workers/enhancement_worker.py` does `from core import SafeJSONHandler`,
which binds the handler defined *in* `core/__init__.py`, not the one in
`core/safe_json_handler.py`.  This handler validates nothing and its
last strategy always succeeds. -/

namespace CoreInit

/-- `ParseStrategy` of `core/__init__.py`. -/
inductive ParseStrategy where
  | DIRECT
  | REGEX
  | SPLIT
  | PARTIAL
  deriving Repr, DecidableEq

/-- Python's `Enum.name` for `ParseStrategy`. -/
def strategyName : ParseStrategy → String
  | .DIRECT => "DIRECT"
  | .REGEX => "REGEX"
  | .SPLIT => "SPLIT"
  | .PARTIAL => "PARTIAL"

/-- `ParseResult` of `core/__init__.py` (dataclass defaults included). -/
structure ParseResult where
  success : Bool
  data : Option PyVal := none
  strategy_used : Option ParseStrategy := none
  error_message : Option String := none
  raw_text : Option String := none
  attempts : Nat := 1
  total_time : Nat := 0
  deriving Repr

/-- `_strategy_direct`: bare `json.loads`, no key validation at all. -/
def strategyDirect (text : String) : ParseResult :=
  match jsonLoads text with
  | some data =>
      { success := true, data := some data, strategy_used := some .DIRECT,
        raw_text := some text }
  | none => { success := false, error_message := some "JSONDecodeError" }

/-- `_strategy_regex`: `re.search(r'\x7b[\s\S]*\x7d')` — first opening
brace to last closing brace (same semantics as the desperate pattern of
`regex_utils`) — then bare `json.loads`. -/
def strategyRegex (text : String) : ParseResult :=
  match RegexUtils.searchGreedy (text.length + 1) text.toList with
  | none => { success := false, error_message := some "No JSON-like pattern found" }
  | some m =>
      match jsonLoads m with
      | some data =>
          { success := true, data := some data, strategy_used := some .REGEX,
            raw_text := some text }
      | none => { success := false, error_message := some "JSONDecodeError" }

/-- Lower-casing as done by Python `str.lower()` (ASCII view). -/
def toLowerChar (c : Char) : Char :=
  if 'A' ≤ c ∧ c ≤ 'Z' then Char.ofNat (c.toNat + 32) else c

/-- Python `str.lower()`. -/
def pyLower (s : String) : String :=
  String.mk (s.toList.map toLowerChar)

/-- `value.replace('.', '').replace('-', '').isdigit()`. -/
def numericLike (v : String) : Bool :=
  let stripped := v.toList.filter (fun c => ¬ c = '.' ∧ ¬ c = '-')
  ¬ stripped = [] && stripped.all Char.isDigit

/-- Does Python `int(v)` succeed, for `v` built from digits, dots and
minus signs?  (An optional single leading minus, then digits.) -/
def pyIntParses (v : String) : Bool :=
  match v.toList with
  | '-' :: ds => ¬ ds = [] && ds.all Char.isDigit
  | ds => ¬ ds = [] && ds.all Char.isDigit

/-- Does Python `float(v)` succeed, for `v` built from digits and exactly
the characters `.`/`-`?  (Optional leading minus, one dot, at least one
digit.) -/
def pyFloatParses (v : String) : Bool :=
  let body := match v.toList with
              | '-' :: rest => rest
              | rest => rest
  let (intPart, rest2) := spanDigits body
  match rest2 with
  | '.' :: frac =>
      frac.all Char.isDigit && ¬ (intPart = [] ∧ frac = [])
  | _ => false

/-- The value coercion of `_strategy_split`: booleans, then numbers (a
`ValueError` from `int`/`float` keeps the raw string), else the string. -/
def coerceValue (v : String) : PyVal :=
  if pyLower v = "true" then .vBool true
  else if pyLower v = "false" then .vBool false
  else if numericLike v then
    if v.toList.contains '.' then
      if pyFloatParses v then .vNum v else .vStr v
    else
      if pyIntParses v then .vNum v else .vStr v
  else .vStr v

/-- A match of the pattern `"([^"]+)"\s*:\s*"?([^",\x7d]+)"?` at the
current position.  Greedy runs are delimited by characters their classes
cannot consume, so matching is deterministic; the optional quotes consume
a quote when present. -/
def splitMatchAt (cs : List Char) : Option ((String × String) × List Char) :=
  match cs with
  | '"' :: rest =>
      let (k, rest2) := rest.span (fun c => ¬ c = '"')
      if k = [] then none
      else
        match rest2 with
        | '"' :: rest3 =>
            match skipRegexWs rest3 with
            | ':' :: rest4 =>
                let rest5 := skipRegexWs rest4
                let rest6 := match rest5 with
                             | '"' :: r => r
                             | r => r
                let (v, rest7) :=
                  rest6.span (fun c => ¬ c = '"' ∧ ¬ c = ',' ∧ ¬ c = '\x7d')
                if v = [] then none
                else
                  let rest8 := match rest7 with
                               | '"' :: r => r
                               | r => r
                  some ((String.mk k, String.mk v), rest8)
            | _ => none
        | _ => none
  | _ => none

/-- `findall` for the split pattern: non-overlapping, left to right. -/
def splitFindall : Nat → List Char → List (String × String)
  | 0, _ => []
  | _ + 1, [] => []
  | fuel + 1, c :: rest =>
      match splitMatchAt (c :: rest) with
      | some (p, rest2) => p :: splitFindall fuel rest2
      | none => splitFindall fuel rest

/-- `_strategy_split`: scrape `"key": value` fragments and coerce the
values; succeeds whenever at least one fragment matched. -/
def strategySplit (text : String) : ParseResult :=
  match splitFindall (text.length + 1) text.toList with
  | [] => { success := false, error_message := some "No key-value pairs found" }
  | p :: rest =>
      let data := (p :: rest).foldl (fun d q => dictInsert d q.1 (coerceValue q.2)) []
      { success := true, data := some (.vObj data), strategy_used := some .SPLIT,
        raw_text := some text }

/-- The dict `_strategy_partial` builds: a 500-character prefix of the raw
text, its length, and whether it contains both an opening and a closing
brace. -/
def partialDict (text : String) : List (String × PyVal) :=
  [("raw_response", .vStr (RegexUtils.pyTake 500 text)),
   ("length", .vNum (toString text.length)),
   ("contains_json", .vBool (text.toList.contains '\x7b' && text.toList.contains '\x7d'))]

/-- `_strategy_partial`: the last-resort strategy — it always *succeeds*
(`success=True`), returning the degraded payload.  Nothing in its body
can raise, so the `except` arm is dead. -/
def strategyPartialFallback (text : String) : ParseResult :=
  { success := true, data := some (.vObj (partialDict text)),
    strategy_used := some .PARTIAL, raw_text := some text }

/-- `SafeJSONHandler.parse` of `core/__init__.py`: total on every input;
empty or non-string input yields a plain failure result (no `len` call
here, unlike `safe_json_handler.py`). -/
def parse (text : PyVal) : ParseResult :=
  match text with
  | .vStr s =>
      if s = "" then
        { success := false,
          error_message := some "Invalid input: text must be non-empty string" }
      else
        let r1 := strategyDirect s
        if r1.success then r1
        else
          let r2 := strategyRegex s
          if r2.success then r2
          else
            let r3 := strategySplit s
            if r3.success then r3
            else strategyPartialFallback s
  | _ =>
      { success := false,
        error_message := some "Invalid input: text must be non-empty string" }

end CoreInit

/-! ## Embedding of `workers/enhancement_worker.py` (`enhance_direct`)

The per-attempt network call is abstracted as a function from the
attempt number to its outcome (a response body, or one of the exception
classes the `except` arms distinguish).  The cancellation `Event` is
modelled by the index of the first cancellation check that observes the
flag set (the event is monotonic, so every later check observes it too);
checks are numbered in the order the code performs them: one at the top
of each loop iteration and one per 100 ms sleep slice. -/

namespace EnhancementWorker

/-- Outcome of one `_call_ollama_api` invocation. -/
inductive ApiOutcome where
  | response (body : String)
  | timeout
  | connError
  | jsonDecodeError (msg : String)
  | otherError (msg : String)
  deriving Repr, DecidableEq

/-- Does the outcome raise (land in an `except` arm)? -/
def isExc : ApiOutcome → Bool
  | .response _ => false
  | _ => true

/-- The `last_error` string each `except` arm records. -/
def excMessage : ApiOutcome → String
  | .response _ => ""
  | .timeout => "Ollama timeout (exceeded 120s)"
  | .connError => "Cannot connect to Ollama (localhost:11434)"
  | .jsonDecodeError msg => "Invalid JSON from Ollama: " ++ RegexUtils.pyTake 100 msg
  | .otherError msg => RegexUtils.pyTake 200 msg

/-- `EnhancementResult` of the worker (dataclass defaults included;
`total_time` is the checkpoint count, see the section comment). -/
structure EnhancementResult where
  success : Bool
  prompt_en : Option PyVal := none
  prompt_pl : Option PyVal := none
  strategy_used : Option String := none
  attempts : Nat := 0
  total_time : Nat := 0
  error_message : Option String := none
  raw_response : Option String := none
  deriving Repr

/-- `cancelled.is_set()` at the check with index `idx`, given the index of
the first check that observes the flag. -/
def isSet (cancelAt : Option Nat) (idx : Nat) : Bool :=
  match cancelAt with
  | some t => decide (t ≤ idx)
  | none => false

/-- The sliced backoff sleep: `for _ in range(int(delay * 10))`, checking
the flag before each 100 ms slice.  Returns the next check index, or
`none` when a check observed the flag (the code then returns cancelled). -/
def sleepLoop (cancelAt : Option Nat) : Nat → Nat → Option Nat
  | chk, 0 => some chk
  | chk, n + 1 => if isSet cancelAt chk then none else sleepLoop cancelAt (chk + 1) n

/-- Does the parse result's data dict carry both required keys?  (The
guard `parse_result.data and 'prompt_en' in parse_result.data and
'prompt_pl' in parse_result.data`.) -/
def hasBothKeys : Option PyVal → Bool
  | some (.vObj d) =>
      ¬ d.isEmpty && (dictGet d "prompt_en").isSome && (dictGet d "prompt_pl").isSome
  | _ => false

/-- The body of one `try` block: call outcome to either a returned
`EnhancementResult` (`Except.ok`) or the `last_error` recorded before
falling through to the retry logic (`Except.error`).  On a parse success
whose data is not a dict, `data.get` raises `AttributeError`, which the
blanket `except Exception` converts into a retryable error. -/
def runAttempt (o : ApiOutcome) (attempts chk : Nat) : Except String EnhancementResult :=
  match o with
  | .response body =>
      let pr := CoreInit.parse (.vStr body)
      match pr.data with
      | some (.vObj d) =>
          if pr.success then
            .ok { success := true,
                  prompt_en := dictGet d "prompt_en",
                  prompt_pl := dictGet d "prompt_pl",
                  strategy_used := pr.strategy_used.map CoreInit.strategyName,
                  attempts := attempts, total_time := chk }
          else if hasBothKeys pr.data then
            .ok { success := true,
                  prompt_en := dictGet d "prompt_en",
                  prompt_pl := dictGet d "prompt_pl",
                  strategy_used := pr.strategy_used.map CoreInit.strategyName,
                  attempts := attempts, total_time := chk }
          else .error ("Parse error: " ++ (pr.error_message.getD "None"))
      | some _ =>
          if pr.success then .error "AttributeError: no attribute get"
          else .error ("Parse error: " ++ (pr.error_message.getD "None"))
      | none => .error ("Parse error: " ++ (pr.error_message.getD "None"))
  | e => .error (excMessage e)

/-- The retry loop of `enhance_direct`, recursing on the number of
remaining loop iterations (`attempt` counts up as in
`for attempt in range(RETRY_MAX_ATTEMPTS)`). -/
def enhanceLoop (out : Nat → ApiOutcome) (cancelAt : Option Nat) (maxA : Nat) :
    Nat → Nat → Nat → Option String → EnhancementResult
  | 0, _, chk, lastErr =>
      { success := false, error_message := some (lastErr.getD "Unknown error"),
        attempts := maxA, total_time := chk }
  | remaining + 1, attempt, chk, _lastErr =>
      if isSet cancelAt chk then
        { success := false, error_message := some "Cancelled by user",
          attempts := attempt + 1, total_time := chk }
      else
        match runAttempt (out attempt) (attempt + 1) (chk + 1) with
        | .ok r => r
        | .error msg =>
            if attempt < maxA - 1 then
              match sleepLoop cancelAt (chk + 1) (get_retry_delay attempt * 10) with
              | none =>
                  { success := false, error_message := some "Cancelled by user",
                    attempts := attempt + 1, total_time := chk }
              | some chk2 => enhanceLoop out cancelAt maxA remaining (attempt + 1) chk2 (some msg)
            else enhanceLoop out cancelAt maxA remaining (attempt + 1) (chk + 1) (some msg)

/-- `enhance_direct`, abstracted over the per-attempt API outcomes and
the cancellation point (prompt building does not influence the retry
logic and is absorbed into `out`). -/
def enhance_direct (out : Nat → ApiOutcome) (cancelAt : Option Nat) : EnhancementResult :=
  enhanceLoop out cancelAt RETRY_MAX_ATTEMPTS RETRY_MAX_ATTEMPTS 0 0 none

end EnhancementWorker

/-- Index of the first cancellation check inside the backoff window that
follows attempt `k` (0-indexed), when every attempt so far has failed:
one top-of-loop check per attempt plus `10 × delay` sleep checks per
completed backoff. -/
def backoffStart : Nat → Nat
  | 0 => 1
  | k + 1 => backoffStart k + get_retry_delay k * 10 + 1

/-- Is a regex-extraction candidate accepted: it parses and validates. -/
def candOk (c : String) : Bool :=
  match jsonLoads c with
  | some v => SafeJSONHandler.validateJson v
  | none => false

/-! ## Helper lemmas -/

namespace SafeJSONHandler

theorem validateJson_obj {d : List (String × PyVal)} {e p : String}
    (he : dictGet d "prompt_en" = some (.vStr e))
    (hp : dictGet d "prompt_pl" = some (.vStr p))
    (hse : ¬ pyStrip e = "") (hsp : ¬ pyStrip p = "") :
    validateJson (.vObj d) = true := by
  simp [validateJson, validKeyVal, he, hp, hse, hsp]

theorem firstValidMatch_eq :
    ∀ (L : List String) (i : Nat) (hi : i < L.length),
      candOk (L.get ⟨i, hi⟩) = true →
      (∀ j (hj : j < i), candOk (L.get ⟨j, Nat.lt_trans hj hi⟩) = false) →
      firstValidMatch L = jsonLoads (L.get ⟨i, hi⟩) := by
  intro L
  induction L with
  | nil => intro i hi; exact absurd hi (by simp)
  | cons m rest ih =>
      intro i hi hok hfst
      cases i with
      | zero =>
          have hm : candOk m = true := hok
          unfold candOk at hm
          cases hload : jsonLoads m with
          | none => rw [hload] at hm; simp at hm
          | some v =>
              rw [hload] at hm
              simp at hm
              simp only [firstValidMatch, List.get, hload]
              simp [hm]
      | succ j =>
          have h0 : candOk m = false := hfst 0 (Nat.succ_pos j)
          have hstep : firstValidMatch (m :: rest) = firstValidMatch rest := by
            unfold candOk at h0
            cases hload : jsonLoads m with
            | none => simp [firstValidMatch, hload]
            | some v =>
                rw [hload] at h0
                simp at h0
                simp [firstValidMatch, hload, h0]
          rw [hstep]
          have hj : j < rest.length := Nat.lt_of_succ_lt_succ hi
          have := ih j hj hok (fun j2 hj2 => hfst (j2 + 1) (Nat.succ_lt_succ hj2))
          simpa using this

end SafeJSONHandler

namespace EnhancementWorker

theorem sleepLoop_none (n : Nat) : ∀ chk : Nat, sleepLoop none chk n = some (chk + n) := by
  induction n with
  | zero => intro chk; rfl
  | succ n ih =>
      intro chk
      rw [show chk + (n + 1) = (chk + 1) + n by omega]
      simp only [sleepLoop, isSet, Bool.false_eq_true, if_false]
      exact ih (chk + 1)

theorem sleepLoop_done (n : Nat) :
    ∀ chk t : Nat, chk + n ≤ t → sleepLoop (some t) chk n = some (chk + n) := by
  induction n with
  | zero => intro chk t _; rfl
  | succ n ih =>
      intro chk t h
      rw [show chk + (n + 1) = (chk + 1) + n by omega]
      have hlt : decide (t ≤ chk) = false := by simp; omega
      simp only [sleepLoop, isSet, hlt, Bool.false_eq_true, if_false]
      exact ih (chk + 1) t (by omega)

theorem sleepLoop_cancelled (n : Nat) :
    ∀ chk t : Nat, chk ≤ t → t < chk + n → sleepLoop (some t) chk n = none := by
  induction n with
  | zero => intro chk t h1 h2; omega
  | succ n ih =>
      intro chk t h1 h2
      by_cases hle : t ≤ chk
      · simp [sleepLoop, isSet, hle]
      · have hd : decide (t ≤ chk) = false := by simp [hle]
        simp only [sleepLoop, isSet, hd, Bool.false_eq_true, if_false]
        exact ih (chk + 1) t (by omega) (by omega)

theorem runAttempt_error_of_isExc (o : ApiOutcome) (a c : Nat) (h : isExc o = true) :
    runAttempt o a c = .error (excMessage o) := by
  cases o with
  | response body => simp [isExc] at h
  | timeout => rfl
  | connError => rfl
  | jsonDecodeError m => rfl
  | otherError m => rfl

theorem runAttempt_ok_attempts (o : ApiOutcome) (a c : Nat) (r : EnhancementResult)
    (h : runAttempt o a c = .ok r) : r.attempts = a := by
  cases o with
  | response body =>
      simp only [runAttempt] at h
      split at h
      · split at h
        · injection h with h2; subst h2; rfl
        · split at h
          · injection h with h2; subst h2; rfl
          · exact absurd h (by simp)
      · split at h <;> exact absurd h (by simp)
      · exact absurd h (by simp)
  | timeout => simp [runAttempt] at h
  | connError => simp [runAttempt] at h
  | jsonDecodeError m => simp [runAttempt] at h
  | otherError m => simp [runAttempt] at h

theorem enhanceLoop_step_exc (out : Nat → ApiOutcome) (ct : Option Nat) (maxA : Nat)
    (remaining attempt chk : Nat) (le : Option String)
    (hexc : isExc (out attempt) = true) (hset : isSet ct chk = false)
    (hlt : attempt < maxA - 1) :
    enhanceLoop out ct maxA (remaining + 1) attempt chk le =
      match sleepLoop ct (chk + 1) (get_retry_delay attempt * 10) with
      | none =>
          { success := false, error_message := some "Cancelled by user",
            attempts := attempt + 1, total_time := chk }
      | some chk2 =>
          enhanceLoop out ct maxA remaining (attempt + 1) chk2
            (some (excMessage (out attempt))) := by
  rw [enhanceLoop, if_neg (by simp [hset]),
      runAttempt_error_of_isExc _ _ _ hexc]
  simp only [hlt, if_true]

theorem enhanceLoop_step_exc_last (out : Nat → ApiOutcome) (ct : Option Nat) (maxA : Nat)
    (remaining attempt chk : Nat) (le : Option String)
    (hexc : isExc (out attempt) = true) (hset : isSet ct chk = false)
    (hge : ¬ attempt < maxA - 1) :
    enhanceLoop out ct maxA (remaining + 1) attempt chk le =
      enhanceLoop out ct maxA remaining (attempt + 1) (chk + 1)
        (some (excMessage (out attempt))) := by
  rw [enhanceLoop, if_neg (by simp [hset]),
      runAttempt_error_of_isExc _ _ _ hexc]
  simp only [hge, if_false]

theorem enhanceLoop_attempts_bounds (out : Nat → ApiOutcome) (ct : Option Nat) (maxA : Nat) :
    ∀ remaining attempt chk (le : Option String),
      attempt + remaining = maxA → 1 ≤ maxA →
      1 ≤ (enhanceLoop out ct maxA remaining attempt chk le).attempts ∧
        (enhanceLoop out ct maxA remaining attempt chk le).attempts ≤ maxA := by
  intro remaining
  induction remaining with
  | zero =>
      intro attempt chk le hsum hmax
      simp only [enhanceLoop]
      exact ⟨hmax, Nat.le_refl _⟩
  | succ remaining ih =>
      intro attempt chk le hsum hmax
      rw [enhanceLoop]
      by_cases hset : isSet ct chk = true
      · rw [if_pos hset]
        exact ⟨(by omega : 1 ≤ attempt + 1), (by omega : attempt + 1 ≤ maxA)⟩
      · rw [if_neg hset]
        rcases hra : runAttempt (out attempt) (attempt + 1) (chk + 1) with msg | r
        · simp only [hra]
          by_cases hlt : attempt < maxA - 1
          · rw [if_pos hlt]
            rcases hsl : sleepLoop ct (chk + 1) (get_retry_delay attempt * 10) with _ | chk2
            · simp only [hsl]
              exact ⟨(by omega : 1 ≤ attempt + 1), (by omega : attempt + 1 ≤ maxA)⟩
            · simp only [hsl]
              exact ih (attempt + 1) chk2 (some msg) (by omega) hmax
          · rw [if_neg hlt]
            exact ih (attempt + 1) (chk + 1) (some msg) (by omega) hmax
        · simp only [hra]
          have ha := runAttempt_ok_attempts _ _ _ _ hra
          rw [ha]
          exact ⟨by omega, by omega⟩

end EnhancementWorker

namespace CoreInit

theorem parse_partialFallback (s : String) (hne : ¬ s = "")
    (h1 : (strategyDirect s).success = false)
    (h2 : (strategyRegex s).success = false)
    (h3 : (strategySplit s).success = false) :
    parse (.vStr s) = strategyPartialFallback s := by
  simp [parse, hne, h1, h2, h3]

theorem partialDict_get_en (s : String) :
    dictGet (partialDict s) "prompt_en" = none := rfl

theorem partialDict_get_pl (s : String) :
    dictGet (partialDict s) "prompt_pl" = none := rfl

end CoreInit

namespace EnhancementWorker

theorem enhanceLoop_partial_success (out : Nat → ApiOutcome) (ct : Option Nat)
    (maxA remaining attempt chk : Nat) (le : Option String) (s : String)
    (hset : isSet ct chk = false) (hresp : out attempt = .response s)
    (hp : CoreInit.parse (.vStr s) = CoreInit.strategyPartialFallback s) :
    enhanceLoop out ct maxA (remaining + 1) attempt chk le =
      { success := true, prompt_en := none, prompt_pl := none,
        strategy_used := some "PARTIAL", attempts := attempt + 1,
        total_time := chk + 1 } := by
  rw [enhanceLoop, if_neg (by simp [hset])]
  have hra : runAttempt (out attempt) (attempt + 1) (chk + 1) =
      .ok { success := true, prompt_en := none, prompt_pl := none,
            strategy_used := some "PARTIAL", attempts := attempt + 1,
            total_time := chk + 1 } := by
    rw [hresp]
    simp only [runAttempt, hp, CoreInit.strategyPartialFallback]
    rw [CoreInit.partialDict_get_en, CoreInit.partialDict_get_pl]
    rfl
  rw [hra]

end EnhancementWorker

/-! ## Claims -/

/-- C2: `SafeJSONHandler.parse` (of `safe_json_handler.py`) is total on
every string input — empty, garbage, or otherwise it returns a
`ParseResult` — but on a non-string input such as `None` the guard path
calls `len(response)` inside `_fallback_result` and raises `TypeError`,
so the operation is *not* total on non-string values as the claim
states. -/
theorem claim2_theorem :
    (∀ s : String, (SafeJSONHandler.parse (.vStr s)).isOk = true) ∧
    SafeJSONHandler.parse .vNull = .error "TypeError: object has no len()" := by
  constructor
  · intro s
    by_cases h : s = ""
    · subst h; rfl
    · simp [SafeJSONHandler.parse, h, Except.isOk, Except.toBool]
  · rfl

/-- C3: the backoff delay for 0-indexed attempt `n` equals
`min(initialDelay * multiplier ^ n, maxDelay)`, equals the initial delay
at `n = 0`, is monotonically non-decreasing, bounded by the max delay,
and strictly increasing while below the cap. -/
theorem claim3_theorem :
    get_retry_delay 0 = RETRY_INITIAL_DELAY ∧
    (∀ n, get_retry_delay n =
      min (RETRY_INITIAL_DELAY * RETRY_BACKOFF_MULTIPLIER ^ n) RETRY_MAX_DELAY) ∧
    (∀ n, get_retry_delay n ≤ get_retry_delay (n + 1)) ∧
    (∀ n, get_retry_delay n ≤ RETRY_MAX_DELAY) ∧
    (∀ n, get_retry_delay n < RETRY_MAX_DELAY →
      get_retry_delay n < get_retry_delay (n + 1)) := by
  refine ⟨rfl, fun n => rfl, fun n => ?_, fun n => Nat.min_le_right _ _, fun n h => ?_⟩
  · have hp : 0 < 2 ^ n := pow_pos (by norm_num) n
    simp only [get_retry_delay, RETRY_INITIAL_DELAY, RETRY_BACKOFF_MULTIPLIER,
      RETRY_MAX_DELAY, pow_succ]
    omega
  · have hp : 0 < 2 ^ n := pow_pos (by norm_num) n
    simp only [get_retry_delay, RETRY_INITIAL_DELAY, RETRY_BACKOFF_MULTIPLIER,
      RETRY_MAX_DELAY, pow_succ] at h ⊢
    omega

/-- C3 witness: at attempt 2 the delay (8) is below the cap and strictly
smaller than the delay of attempt 3 (16). -/
theorem claim3_witness :
    get_retry_delay 2 < RETRY_MAX_DELAY ∧ get_retry_delay 2 < get_retry_delay 3 :=
  ⟨by decide, claim3_theorem.2.2.2.2 2 (by decide)⟩

/-- C9: every result of `enhance_direct` — success, failure or
cancellation — carries an attempt count between 1 and the configured
maximum `RETRY_MAX_ATTEMPTS`. -/
theorem claim9_theorem (out : Nat → EnhancementWorker.ApiOutcome) (cancelAt : Option Nat) :
    1 ≤ (EnhancementWorker.enhance_direct out cancelAt).attempts ∧
    (EnhancementWorker.enhance_direct out cancelAt).attempts ≤ RETRY_MAX_ATTEMPTS :=
  EnhancementWorker.enhanceLoop_attempts_bounds out cancelAt RETRY_MAX_ATTEMPTS
    RETRY_MAX_ATTEMPTS 0 0 none rfl (by decide)

/-- C6 counterexample: `\x7b"prompt_en": " ", "prompt_pl": "kot"\x7d` is a
well-formed document that directly contains both required fields as
non-empty strings, yet `parse` does not return a direct-parse success:
the whitespace-only value fails the strip validation of every strategy
and the result is a failed `FALLBACK`. -/
theorem claim6_counterexample :
    jsonLoads "\x7b\"prompt_en\": \" \", \"prompt_pl\": \"kot\"\x7d" =
      some (.vObj [("prompt_en", .vStr " "), ("prompt_pl", .vStr "kot")]) ∧
    ¬ (" " : String) = "" ∧
    (SafeJSONHandler.parseStr "\x7b\"prompt_en\": \" \", \"prompt_pl\": \"kot\"\x7d").success
      = false ∧
    (SafeJSONHandler.parseStr "\x7b\"prompt_en\": \" \", \"prompt_pl\": \"kot\"\x7d").strategy_used
      = .FALLBACK ∧
    SafeJSONHandler.parse (.vStr "\x7b\"prompt_en\": \" \", \"prompt_pl\": \"kot\"\x7d") =
      .ok (SafeJSONHandler.parseStr "\x7b\"prompt_en\": \" \", \"prompt_pl\": \"kot\"\x7d") :=
  ⟨rfl, by decide, rfl, rfl, rfl⟩

/-- C6 (amended): for every input that is a well-formed document directly
containing the two required fields as strings that are non-empty *after
stripping*, `parse` returns success via the direct-parse strategy with
the parsed object (hence the field values exactly as given), never
falling through to a weaker strategy. -/
theorem claim6_theorem (s : String) (d : List (String × PyVal)) (e p : String)
    (hload : jsonLoads s = some (.vObj d))
    (he : dictGet d "prompt_en" = some (.vStr e))
    (hp : dictGet d "prompt_pl" = some (.vStr p))
    (hse : ¬ SafeJSONHandler.pyStrip e = "")
    (hsp : ¬ SafeJSONHandler.pyStrip p = "") :
    SafeJSONHandler.parse (.vStr s) =
      .ok { success := true, data := some (.vObj d),
            strategy_used := .DIRECT_PARSE, error_message := none,
            raw_response := some (.vStr s) } := by
  have hne : ¬ s = "" := by
    intro h
    subst h
    rw [show jsonLoads "" = (none : Option PyVal) from rfl] at hload
    exact Option.noConfusion hload
  have hval : SafeJSONHandler.validateJson (.vObj d) = true :=
    SafeJSONHandler.validateJson_obj he hp hse hsp
  have hdir : SafeJSONHandler.strategyDirectParse s =
      { success := true, data := some (.vObj d),
        strategy_used := .DIRECT_PARSE, error_message := none,
        raw_response := some (.vStr s) } := by
    simp [SafeJSONHandler.strategyDirectParse, hload, hval]
  simp [SafeJSONHandler.parse, hne, SafeJSONHandler.parseStr, hdir]

/-- C6 witness: the specification scenario
`\x7b"prompt_en": "a cat", "prompt_pl": "kot"\x7d` parses via the
direct-parse strategy with the fields exactly as given. -/
theorem claim6_witness :
    SafeJSONHandler.parse (.vStr "\x7b\"prompt_en\": \"a cat\", \"prompt_pl\": \"kot\"\x7d") =
      .ok { success := true,
            data := some (.vObj [("prompt_en", .vStr "a cat"), ("prompt_pl", .vStr "kot")]),
            strategy_used := .DIRECT_PARSE, error_message := none,
            raw_response := some (.vStr "\x7b\"prompt_en\": \"a cat\", \"prompt_pl\": \"kot\"\x7d") } :=
  claim6_theorem "\x7b\"prompt_en\": \"a cat\", \"prompt_pl\": \"kot\"\x7d"
    [("prompt_en", .vStr "a cat"), ("prompt_pl", .vStr "kot")] "a cat" "kot"
    rfl rfl rfl (by decide) (by decide)

/-- C7 counterexample: in
`Sure: \x7b"prompt_en": "a dog", "prompt_pl": "pies", "meta": \x7b"x": \x7b"y": 1\x7d\x7d\x7d thanks`
the two required fields sit inside a well-formed object embedded in
prose, yet `parse` succeeds via the key-value scraping strategy, not the
pattern-extraction strategy: the extraction regex cannot match the
doubly nested object, and its only candidate is the inner `meta`
fragment, which fails validation. -/
theorem claim7_counterexample :
    jsonLoads "\x7b\"prompt_en\": \"a dog\", \"prompt_pl\": \"pies\", \"meta\": \x7b\"x\": \x7b\"y\": 1\x7d\x7d\x7d" =
      some (.vObj [("prompt_en", .vStr "a dog"), ("prompt_pl", .vStr "pies"),
                   ("meta", .vObj [("x", .vObj [("y", .vNum "1")])])]) ∧
    SafeJSONHandler.validateJson
      (.vObj [("prompt_en", .vStr "a dog"), ("prompt_pl", .vStr "pies"),
              ("meta", .vObj [("x", .vObj [("y", .vNum "1")])])]) = true ∧
    RegexUtils.containsSub
      "\x7b\"prompt_en\": \"a dog\", \"prompt_pl\": \"pies\", \"meta\": \x7b\"x\": \x7b\"y\": 1\x7d\x7d\x7d".toList
      "Sure: \x7b\"prompt_en\": \"a dog\", \"prompt_pl\": \"pies\", \"meta\": \x7b\"x\": \x7b\"y\": 1\x7d\x7d\x7d thanks".toList = true ∧
    jsonCandidates "Sure: \x7b\"prompt_en\": \"a dog\", \"prompt_pl\": \"pies\", \"meta\": \x7b\"x\": \x7b\"y\": 1\x7d\x7d\x7d thanks" =
      ["\x7b\"x\": \x7b\"y\": 1\x7d\x7d"] ∧
    (SafeJSONHandler.parseStr "Sure: \x7b\"prompt_en\": \"a dog\", \"prompt_pl\": \"pies\", \"meta\": \x7b\"x\": \x7b\"y\": 1\x7d\x7d\x7d thanks").strategy_used
      = .PARTIAL_PARSE ∧
    ¬ SafeJSONHandler.JSONExtractionStrategy.PARTIAL_PARSE = .REGEX_EXTRACTION ∧
    SafeJSONHandler.parse
        (.vStr "Sure: \x7b\"prompt_en\": \"a dog\", \"prompt_pl\": \"pies\", \"meta\": \x7b\"x\": \x7b\"y\": 1\x7d\x7d\x7d thanks") =
      .ok (SafeJSONHandler.parseStr "Sure: \x7b\"prompt_en\": \"a dog\", \"prompt_pl\": \"pies\", \"meta\": \x7b\"x\": \x7b\"y\": 1\x7d\x7d\x7d thanks") :=
  ⟨rfl, rfl, rfl, rfl, rfl, by decide, rfl⟩

/-- C7 (amended): when direct parse fails and the extraction pattern's
candidate list contains (at position `i`) a substring that parses and
validates, while every earlier candidate fails to parse or validate,
`parse` succeeds via the pattern-extraction strategy with exactly the
parsed value of that candidate (the field values as if the prose were
stripped).  Every candidate is tried in order: an earlier candidate that
parses but fails validation does not stop the scan. -/
theorem claim7_theorem (s : String) (i : Nat) (hi : i < (jsonCandidates s).length)
    (hdir : (SafeJSONHandler.strategyDirectParse s).success = false)
    (hok : candOk ((jsonCandidates s).get ⟨i, hi⟩) = true)
    (hfst : ∀ j (hj : j < i), candOk ((jsonCandidates s).get ⟨j, Nat.lt_trans hj hi⟩) = false) :
    SafeJSONHandler.parse (.vStr s) =
      .ok { success := true, data := jsonLoads ((jsonCandidates s).get ⟨i, hi⟩),
            strategy_used := .REGEX_EXTRACTION, error_message := none,
            raw_response := some (.vStr s) } := by
  have hne : ¬ s = "" := by
    intro h
    subst h
    have h0 : (jsonCandidates "").length = 0 := rfl
    omega
  obtain ⟨v, hv⟩ : ∃ v, jsonLoads ((jsonCandidates s).get ⟨i, hi⟩) = some v := by
    unfold candOk at hok
    cases hl : jsonLoads ((jsonCandidates s).get ⟨i, hi⟩) with
    | none => rw [hl] at hok; simp at hok
    | some v => exact ⟨v, rfl⟩
  have hfvm : SafeJSONHandler.firstValidMatch (jsonCandidates s) = some v := by
    rw [SafeJSONHandler.firstValidMatch_eq _ i hi hok hfst, hv]
  have hreg : SafeJSONHandler.strategyRegexExtraction s =
      { success := true, data := some v, strategy_used := .REGEX_EXTRACTION,
        error_message := none, raw_response := some (.vStr s) } := by
    unfold SafeJSONHandler.strategyRegexExtraction
    cases hc : jsonCandidates s with
    | nil => rw [hc] at hi; simp at hi
    | cons m rest =>
        rw [hc] at hfvm
        simp [hfvm]
  rw [hv]
  simp [SafeJSONHandler.parse, hne, SafeJSONHandler.parseStr, hdir, hreg]

/-- C7 witness: the specification scenario — prose around
`\x7b"prompt_en": "a dog", "prompt_pl": "pies"\x7d` — succeeds via
pattern extraction with fields `a dog` / `pies` (candidate 0). -/
theorem claim7_witness :
    SafeJSONHandler.parse
        (.vStr "Sure! Here you go:\n\x7b\"prompt_en\": \"a dog\", \"prompt_pl\": \"pies\"\x7d\nHope that helps!") =
      .ok { success := true,
            data := jsonLoads ((jsonCandidates "Sure! Here you go:\n\x7b\"prompt_en\": \"a dog\", \"prompt_pl\": \"pies\"\x7d\nHope that helps!").get
              ⟨0, by decide⟩),
            strategy_used := .REGEX_EXTRACTION, error_message := none,
            raw_response := some (.vStr "Sure! Here you go:\n\x7b\"prompt_en\": \"a dog\", \"prompt_pl\": \"pies\"\x7d\nHope that helps!") } :=
  claim7_theorem "Sure! Here you go:\n\x7b\"prompt_en\": \"a dog\", \"prompt_pl\": \"pies\"\x7d\nHope that helps!"
    0 (by decide) rfl rfl (fun j hj => absurd hj (Nat.not_lt_zero j))

/-- C8 counterexample:
`"prompt_en": "a bird", "prompt_pl": "ptak", "prompt_en": ""` has broken
structural syntax and contains literal `"key": "value"` fragments with
non-empty values for both required fields, yet `parse` fails: the
scraper keeps the *last* occurrence per key, and the final empty
`prompt_en` defeats validation, so the result is a failed `FALLBACK`,
not a key-value-scraping success. -/
theorem claim8_counterexample :
    kvPairs "\"prompt_en\": \"a bird\", \"prompt_pl\": \"ptak\", \"prompt_en\": \"\"" =
      [("prompt_en", "a bird"), ("prompt_pl", "ptak"), ("prompt_en", "")] ∧
    ¬ SafeJSONHandler.pyStrip "a bird" = "" ∧
    ¬ SafeJSONHandler.pyStrip "ptak" = "" ∧
    (SafeJSONHandler.parseStr "\"prompt_en\": \"a bird\", \"prompt_pl\": \"ptak\", \"prompt_en\": \"\"").success = false ∧
    (SafeJSONHandler.parseStr "\"prompt_en\": \"a bird\", \"prompt_pl\": \"ptak\", \"prompt_en\": \"\"").strategy_used = .FALLBACK ∧
    SafeJSONHandler.parse (.vStr "\"prompt_en\": \"a bird\", \"prompt_pl\": \"ptak\", \"prompt_en\": \"\"") =
      .ok (SafeJSONHandler.parseStr "\"prompt_en\": \"a bird\", \"prompt_pl\": \"ptak\", \"prompt_en\": \"\"") :=
  ⟨rfl, by decide, by decide, rfl, rfl, rfl⟩

/-- C8 (amended): when the direct-parse and pattern-extraction strategies
fail and the dict reconstructed from the `"key": "value"` fragments
(last occurrence per key winning) holds both required fields with values
non-empty after stripping, `parse` recovers them and succeeds via the
key-value scraping strategy. -/
theorem claim8_theorem (s : String) (e p : String)
    (h1 : (SafeJSONHandler.strategyDirectParse s).success = false)
    (h2 : (SafeJSONHandler.strategyRegexExtraction s).success = false)
    (he : dictGet (SafeJSONHandler.reconstruct (kvPairs s)) "prompt_en" = some (.vStr e))
    (hp : dictGet (SafeJSONHandler.reconstruct (kvPairs s)) "prompt_pl" = some (.vStr p))
    (hse : ¬ SafeJSONHandler.pyStrip e = "")
    (hsp : ¬ SafeJSONHandler.pyStrip p = "") :
    SafeJSONHandler.parse (.vStr s) =
      .ok { success := true,
            data := some (.vObj (SafeJSONHandler.reconstruct (kvPairs s))),
            strategy_used := .PARTIAL_PARSE, error_message := none,
            raw_response := some (.vStr s) } := by
  have hval : SafeJSONHandler.validateJson (.vObj (SafeJSONHandler.reconstruct (kvPairs s))) = true :=
    SafeJSONHandler.validateJson_obj he hp hse hsp
  have hkvne : ¬ kvPairs s = [] := by
    intro h
    rw [h] at he
    simp [SafeJSONHandler.reconstruct, dictGet] at he
  have hne : ¬ s = "" := by
    intro h
    subst h
    exact hkvne rfl
  have hpart : SafeJSONHandler.strategyPartialParse s =
      { success := true,
        data := some (.vObj (SafeJSONHandler.reconstruct (kvPairs s))),
        strategy_used := .PARTIAL_PARSE, error_message := none,
        raw_response := some (.vStr s) } := by
    unfold SafeJSONHandler.strategyPartialParse
    cases hc : kvPairs s with
    | nil => exact absurd hc hkvne
    | cons q rest =>
        rw [hc] at hval
        simp [hval, hc]
  simp [SafeJSONHandler.parse, hne, SafeJSONHandler.parseStr, h1, h2, hpart]

/-- C8 witness: the specification scenario
`"prompt_en": "a bird", "prompt_pl": "ptak"` (missing braces) succeeds
via key-value scraping. -/
theorem claim8_witness :
    SafeJSONHandler.parse (.vStr "\"prompt_en\": \"a bird\", \"prompt_pl\": \"ptak\"") =
      .ok { success := true,
            data := some (.vObj (SafeJSONHandler.reconstruct
              (kvPairs "\"prompt_en\": \"a bird\", \"prompt_pl\": \"ptak\""))),
            strategy_used := .PARTIAL_PARSE, error_message := none,
            raw_response := some (.vStr "\"prompt_en\": \"a bird\", \"prompt_pl\": \"ptak\"") } :=
  claim8_theorem "\"prompt_en\": \"a bird\", \"prompt_pl\": \"ptak\"" "a bird" "ptak"
    rfl rfl rfl rfl (by decide) (by decide)

/-- C10 counterexample: for a non-string input such as `True`, `parse`
does not return a `ParseResult` at all — the fallback's `len(response)`
raises `TypeError` — so "including … non-string input" fails. -/
theorem claim10_counterexample :
    SafeJSONHandler.parse (.vBool true) = .error "TypeError: object has no len()" := rfl

/-- C10 (amended): for every *string* input on which all three extraction
strategies fail — including the empty string, which short-circuits
through the invalid-input guard — `parse` returns a `ParseResult` whose
`success` is `False` yet whose `data` is a dict that still carries
non-empty strings under both required keys, an `error` message, and the
raw response length.  (For non-string input the claim fails: the length
computation raises, see the counterexample and C2.) -/
theorem claim10_theorem (s : String)
    (h1 : (SafeJSONHandler.strategyDirectParse s).success = false)
    (h2 : (SafeJSONHandler.strategyRegexExtraction s).success = false)
    (h3 : (SafeJSONHandler.strategyPartialParse s).success = false) :
    ∃ msg,
      SafeJSONHandler.parse (.vStr s) =
        .ok { success := false,
              data := some (.vObj (SafeJSONHandler.fallbackData msg s.length)),
              strategy_used := .FALLBACK, error_message := some msg,
              raw_response := some (.vStr s) } ∧
      dictGet (SafeJSONHandler.fallbackData msg s.length) "prompt_en" =
        some (.vStr "Error parsing response. Please try again.") ∧
      dictGet (SafeJSONHandler.fallbackData msg s.length) "prompt_pl" =
        some (.vStr "Błąd parsowania odpowiedzi. Spróbuj ponownie.") ∧
      dictGet (SafeJSONHandler.fallbackData msg s.length) "error" = some (.vStr msg) ∧
      dictGet (SafeJSONHandler.fallbackData msg s.length) "raw_response_length" =
        some (.vNum (toString s.length)) ∧
      ¬ SafeJSONHandler.pyStrip "Error parsing response. Please try again." = "" ∧
      ¬ SafeJSONHandler.pyStrip "Błąd parsowania odpowiedzi. Spróbuj ponownie." = "" := by
  by_cases hempty : s = ""
  · subst hempty
    exact ⟨"Invalid response type: <class 'str'>",
      rfl, rfl, rfl, rfl, rfl, by decide, by decide⟩
  · refine ⟨"All parsing strategies failed", ?_, rfl, rfl, rfl, rfl, by decide, by decide⟩
    simp [SafeJSONHandler.parse, hempty, SafeJSONHandler.parseStr, h1, h2, h3]

/-- C10 witness: on `no structure here` every strategy fails and the
fallback `ParseResult` carries both fields, the error and the length. -/
theorem claim10_witness :
    (SafeJSONHandler.strategyDirectParse "no structure here").success = false ∧
    (SafeJSONHandler.strategyRegexExtraction "no structure here").success = false ∧
    (SafeJSONHandler.strategyPartialParse "no structure here").success = false ∧
    ∃ msg,
      SafeJSONHandler.parse (.vStr "no structure here") =
        .ok { success := false,
              data := some (.vObj (SafeJSONHandler.fallbackData msg "no structure here".length)),
              strategy_used := .FALLBACK, error_message := some msg,
              raw_response := some (.vStr "no structure here") } ∧
      dictGet (SafeJSONHandler.fallbackData msg "no structure here".length) "prompt_en" =
        some (.vStr "Error parsing response. Please try again.") ∧
      dictGet (SafeJSONHandler.fallbackData msg "no structure here".length) "prompt_pl" =
        some (.vStr "Błąd parsowania odpowiedzi. Spróbuj ponownie.") ∧
      dictGet (SafeJSONHandler.fallbackData msg "no structure here".length) "error" =
        some (.vStr msg) ∧
      dictGet (SafeJSONHandler.fallbackData msg "no structure here".length) "raw_response_length" =
        some (.vNum (toString "no structure here".length)) ∧
      ¬ SafeJSONHandler.pyStrip "Error parsing response. Please try again." = "" ∧
      ¬ SafeJSONHandler.pyStrip "Błąd parsowania odpowiedzi. Spróbuj ponownie." = "" :=
  ⟨rfl, rfl, rfl, claim10_theorem "no structure here" rfl rfl rfl⟩

/-- C4 counterexample: the fallback of `extract_json_from_response` on
`hello` places the raw-text prefix in both required fields and a
degraded annotation, but — contrary to the claim — carries neither the
original text length nor any boolean structured-document flag (there is
no boolean value in the payload at all). -/
theorem claim4_counterexample :
    RegexUtils.extract_json_from_response "hello" =
      [("prompt_en", .vStr "hello"), ("prompt_pl", .vStr "hello"),
       ("_status", .vStr "fallback_raw_response")] ∧
    dictGet (RegexUtils.extract_json_from_response "hello") "raw_response_length" = none ∧
    dictGet (RegexUtils.extract_json_from_response "hello") "length" = none ∧
    dictGet (RegexUtils.extract_json_from_response "hello") "contains_json" = none ∧
    (RegexUtils.extract_json_from_response "hello").all
      (fun q => match q.2 with | .vBool _ => false | _ => true) = true :=
  ⟨rfl, rfl, rfl, rfl, rfl⟩

/-- C4 (amended): whenever every extraction pattern fails,
`extract_json_from_response` never fails: it returns a synthetic payload
that places the (≤ 500-character) prefix of the raw text into both
required fields and is annotated as degraded via
`"_status": "fallback_raw_response"`; it carries neither the original
text length nor a brace flag (the length is carried instead by the
handler's `_fallback_result`, see C10). -/
theorem claim4_theorem (s : String)
    (h : RegexUtils.tryPatterns (RegexUtils.patternSearches s) = none) :
    RegexUtils.extract_json_from_response s = RegexUtils.fallbackRaw s ∧
    dictGet (RegexUtils.fallbackRaw s) "prompt_en" = some (.vStr (RegexUtils.pyTake 500 s)) ∧
    dictGet (RegexUtils.fallbackRaw s) "prompt_pl" = some (.vStr (RegexUtils.pyTake 500 s)) ∧
    dictGet (RegexUtils.fallbackRaw s) "_status" = some (.vStr "fallback_raw_response") ∧
    dictGet (RegexUtils.fallbackRaw s) "raw_response_length" = none ∧
    dictGet (RegexUtils.fallbackRaw s) "length" = none ∧
    dictGet (RegexUtils.fallbackRaw s) "contains_json" = none ∧
    (RegexUtils.pyTake 500 s).length ≤ 500 := by
  refine ⟨?_, rfl, rfl, rfl, rfl, rfl, rfl, ?_⟩
  · unfold RegexUtils.extract_json_from_response
    rw [h]
  · exact List.length_take_le 500 s.toList

/-- C4 witness: on `hello` every pattern fails and the fallback payload
has the stated shape. -/
theorem claim4_witness :
    RegexUtils.extract_json_from_response "hello" = RegexUtils.fallbackRaw "hello" ∧
    dictGet (RegexUtils.fallbackRaw "hello") "prompt_en" =
      some (.vStr (RegexUtils.pyTake 500 "hello")) ∧
    dictGet (RegexUtils.fallbackRaw "hello") "prompt_pl" =
      some (.vStr (RegexUtils.pyTake 500 "hello")) ∧
    dictGet (RegexUtils.fallbackRaw "hello") "_status" =
      some (.vStr "fallback_raw_response") ∧
    dictGet (RegexUtils.fallbackRaw "hello") "raw_response_length" = none ∧
    dictGet (RegexUtils.fallbackRaw "hello") "length" = none ∧
    dictGet (RegexUtils.fallbackRaw "hello") "contains_json" = none ∧
    (RegexUtils.pyTake 500 "hello").length ≤ 500 :=
  claim4_theorem "hello" rfl

/-- C1 counterexample: for the response
`just a sentence with no structure at all` — which every stricter
strategy rejects — `enhance_direct` returns success via the degraded
fallback on the *first* attempt (`attempts = 1`, not the final attempt
`RETRY_MAX_ATTEMPTS = 3`), and the degraded payload carries no prompt
fields at all. -/
theorem claim1_counterexample :
    (EnhancementWorker.enhance_direct
      (fun _ => .response "just a sentence with no structure at all") none).success = true ∧
    (EnhancementWorker.enhance_direct
      (fun _ => .response "just a sentence with no structure at all") none).attempts = 1 ∧
    (EnhancementWorker.enhance_direct
      (fun _ => .response "just a sentence with no structure at all") none).strategy_used
      = some "PARTIAL" ∧
    (EnhancementWorker.enhance_direct
      (fun _ => .response "just a sentence with no structure at all") none).prompt_en = none ∧
    (EnhancementWorker.enhance_direct
      (fun _ => .response "just a sentence with no structure at all") none).prompt_pl = none ∧
    RETRY_MAX_ATTEMPTS = 3 :=
  ⟨rfl, rfl, rfl, rfl, rfl, rfl⟩

/-- C1 (amended): when the attempt with index `k` (reached because every
earlier attempt raised) yields a response that only the degraded
fallback strategy accepts, the worker returns it *immediately* as a
success on that same attempt — on every attempt, including the first —
with strategy name `PARTIAL`, `attempts = k + 1`, and no prompt fields
(the degraded payload does not contain them). -/
theorem claim1_theorem (out : Nat → EnhancementWorker.ApiOutcome) (k : Nat) (s : String)
    (hk : k < RETRY_MAX_ATTEMPTS)
    (hexc : ∀ i, i < k → EnhancementWorker.isExc (out i) = true)
    (hresp : out k = .response s)
    (hne : ¬ s = "")
    (h1 : (CoreInit.strategyDirect s).success = false)
    (h2 : (CoreInit.strategyRegex s).success = false)
    (h3 : (CoreInit.strategySplit s).success = false) :
    (EnhancementWorker.enhance_direct out none).success = true ∧
    (EnhancementWorker.enhance_direct out none).attempts = k + 1 ∧
    (EnhancementWorker.enhance_direct out none).strategy_used = some "PARTIAL" ∧
    (EnhancementWorker.enhance_direct out none).prompt_en = none ∧
    (EnhancementWorker.enhance_direct out none).prompt_pl = none := by
  have hpar := CoreInit.parse_partialFallback s hne h1 h2 h3
  have hk3 : k < 3 := hk
  interval_cases k
  · have hmain : EnhancementWorker.enhance_direct out none =
        { success := true, prompt_en := none, prompt_pl := none,
          strategy_used := some "PARTIAL", attempts := 0 + 1, total_time := 0 + 1 } :=
      EnhancementWorker.enhanceLoop_partial_success out none 3 2 0 0 none s rfl hresp hpar
    rw [hmain]
    exact ⟨rfl, rfl, rfl, rfl, rfl⟩
  · have hstep := EnhancementWorker.enhanceLoop_step_exc out none 3 2 0 0 none
      (hexc 0 (by omega)) rfl (by omega)
    have hrest := EnhancementWorker.enhanceLoop_partial_success out none 3 1 1 21
      (some (EnhancementWorker.excMessage (out 0))) s rfl hresp hpar
    have hmain : EnhancementWorker.enhance_direct out none =
        { success := true, prompt_en := none, prompt_pl := none,
          strategy_used := some "PARTIAL", attempts := 1 + 1, total_time := 21 + 1 } :=
      hstep.trans hrest
    rw [hmain]
    exact ⟨rfl, rfl, rfl, rfl, rfl⟩
  · have hstep0 := EnhancementWorker.enhanceLoop_step_exc out none 3 2 0 0 none
      (hexc 0 (by omega)) rfl (by omega)
    have hstep1 := EnhancementWorker.enhanceLoop_step_exc out none 3 1 1 21
      (some (EnhancementWorker.excMessage (out 0))) (hexc 1 (by omega)) rfl (by omega)
    have hrest := EnhancementWorker.enhanceLoop_partial_success out none 3 0 2 62
      (some (EnhancementWorker.excMessage (out 1))) s rfl hresp hpar
    have hmain : EnhancementWorker.enhance_direct out none =
        { success := true, prompt_en := none, prompt_pl := none,
          strategy_used := some "PARTIAL", attempts := 2 + 1, total_time := 62 + 1 } :=
      hstep0.trans (hstep1.trans hrest)
    rw [hmain]
    exact ⟨rfl, rfl, rfl, rfl, rfl⟩

/-- C1 witness: attempt 0 times out, attempt 1 answers with the plain
sentence; the worker succeeds via `PARTIAL` on attempt 2 of 3, not the
final attempt. -/
theorem claim1_witness :
    (EnhancementWorker.enhance_direct
      (fun i => if i = 0 then .timeout
                else .response "just a sentence with no structure at all") none).success = true ∧
    (EnhancementWorker.enhance_direct
      (fun i => if i = 0 then .timeout
                else .response "just a sentence with no structure at all") none).attempts = 2 ∧
    (EnhancementWorker.enhance_direct
      (fun i => if i = 0 then .timeout
                else .response "just a sentence with no structure at all") none).strategy_used
      = some "PARTIAL" ∧
    (EnhancementWorker.enhance_direct
      (fun i => if i = 0 then .timeout
                else .response "just a sentence with no structure at all") none).prompt_en = none ∧
    (EnhancementWorker.enhance_direct
      (fun i => if i = 0 then .timeout
                else .response "just a sentence with no structure at all") none).prompt_pl = none :=
  claim1_theorem
    (fun i => if i = 0 then .timeout
              else .response "just a sentence with no structure at all")
    1 "just a sentence with no structure at all"
    (by decide) (by intro i hi; interval_cases i; rfl) rfl (by decide) rfl rfl rfl

/-- C5: cancelling during the sliced backoff wait that follows a failed
attempt `k` (every attempt so far having raised) yields a cancelled
result with `attempts = k + 1`, never the exhausted-retries kind: the
flag is observed at whichever 100 ms slice of the window it is first
set. -/
theorem claim5_theorem (out : Nat → EnhancementWorker.ApiOutcome) (k t : Nat)
    (hk : k + 1 < RETRY_MAX_ATTEMPTS)
    (hexc : ∀ i, i ≤ k → EnhancementWorker.isExc (out i) = true)
    (hlo : backoffStart k ≤ t)
    (hhi : t < backoffStart k + get_retry_delay k * 10) :
    (EnhancementWorker.enhance_direct out (some t)).success = false ∧
    (EnhancementWorker.enhance_direct out (some t)).attempts = k + 1 ∧
    (EnhancementWorker.enhance_direct out (some t)).error_message
      = some "Cancelled by user" := by
  have hk2 : k < 2 := by
    have h3 : k + 1 < 3 := hk
    omega
  interval_cases k
  · have hlo0 : 1 ≤ t := hlo
    have hhi0 : t < 21 := hhi
    have hset0 : EnhancementWorker.isSet (some t) 0 = false := by
      simp [EnhancementWorker.isSet]
      omega
    have hstep := EnhancementWorker.enhanceLoop_step_exc out (some t) 3 2 0 0 none
      (hexc 0 (by omega)) hset0 (by omega)
    have hsl : EnhancementWorker.sleepLoop (some t) (0 + 1) (get_retry_delay 0 * 10) = none :=
      EnhancementWorker.sleepLoop_cancelled _ _ _ (by omega : 1 ≤ t) (by omega : t < 21)
    rw [hsl] at hstep
    have hmain : EnhancementWorker.enhance_direct out (some t) =
        { success := false, error_message := some "Cancelled by user",
          attempts := 0 + 1, total_time := 0 } := hstep
    rw [hmain]
    exact ⟨rfl, rfl, rfl⟩
  · have hlo1 : 22 ≤ t := hlo
    have hhi1 : t < 62 := hhi
    have hset0 : EnhancementWorker.isSet (some t) 0 = false := by
      simp [EnhancementWorker.isSet]
      omega
    have hset1 : EnhancementWorker.isSet (some t) 21 = false := by
      simp [EnhancementWorker.isSet]
      omega
    have hstep0 := EnhancementWorker.enhanceLoop_step_exc out (some t) 3 2 0 0 none
      (hexc 0 (by omega)) hset0 (by omega)
    have hsl0 : EnhancementWorker.sleepLoop (some t) (0 + 1) (get_retry_delay 0 * 10) =
        some (0 + 1 + get_retry_delay 0 * 10) :=
      EnhancementWorker.sleepLoop_done _ _ _ ((by omega : 21 ≤ t) :
        0 + 1 + get_retry_delay 0 * 10 ≤ t)
    rw [hsl0] at hstep0
    have hstep1 := EnhancementWorker.enhanceLoop_step_exc out (some t) 3 1 1 21
      (some (EnhancementWorker.excMessage (out 0))) (hexc 1 (by omega)) hset1 (by omega)
    have hsl1 : EnhancementWorker.sleepLoop (some t) (21 + 1) (get_retry_delay 1 * 10) = none :=
      EnhancementWorker.sleepLoop_cancelled _ _ _ (by omega : 22 ≤ t) (by omega : t < 62)
    rw [hsl1] at hstep1
    have hmain : EnhancementWorker.enhance_direct out (some t) =
        { success := false, error_message := some "Cancelled by user",
          attempts := 1 + 1, total_time := 21 } := hstep0.trans hstep1
    rw [hmain]
    exact ⟨rfl, rfl, rfl⟩

/-- C5 witness: with every attempt timing out and the flag first observed
at checkpoint 5 — the fifth sleep slice of the backoff after attempt 0 —
the result is cancelled with `attempts = 1`. -/
theorem claim5_witness :
    (EnhancementWorker.enhance_direct (fun _ => .timeout) (some 5)).success = false ∧
    (EnhancementWorker.enhance_direct (fun _ => .timeout) (some 5)).attempts = 1 ∧
    (EnhancementWorker.enhance_direct (fun _ => .timeout) (some 5)).error_message
      = some "Cancelled by user" :=
  claim5_theorem (fun _ => .timeout) 0 5 (by decide) (fun i _ => rfl)
    (by decide) (by decide)
